import Mathlib

/-!
Verification of the configuration bootstrap of minecraft-server-hibernation
(`lib/config/config.go`).  The Go source is shallowly embedded: pure string
manipulation is translated to executable Lean functions on `List Char`,
filesystem / subprocess / library boundaries become explicit inputs, and the
stateful bootstrap (`loadDefault`, `loadRuntime`, `LoadConfig`) becomes
explicit state passing on a `Configuration` record plus the process-wide
dirty flag (`ConfigDefaultSave`).
-/

namespace Msh

/-! ## Go `strings` primitives (modelled from the Go standard library at the
boundary, used exactly as `config.go` uses them) -/

/-- `hasPref pat s` is true when `pat` is a prefix of `s`
(Go `strings.HasPrefix s pat`). -/
def hasPref : List Char → List Char → Bool
  | [], _ => true
  | _ :: _, [] => false
  | p :: ps, c :: cs => (p = c) && hasPref ps cs

/-- `containsSub s pat` is Go `strings.Contains(s, pat)`. -/
def containsSub (pat : List Char) : List Char → Bool
  | [] => pat.isEmpty
  | c :: rest => hasPref pat (c :: rest) || containsSub pat rest

/-- Fuel-driven worker for `replaceAllL`; `fuel ≥ s.length` makes the
fuel-exhaustion branch unreachable.  Matches Go `strings.ReplaceAll` for a
non-empty pattern: leftmost non-overlapping occurrences are replaced. -/
def replaceAllAux : Nat → List Char → List Char → List Char → List Char
  | 0, s, _, _ => s
  | _ + 1, [], _, _ => []
  | fuel + 1, c :: rest, old, new =>
    if hasPref old (c :: rest) then
      new ++ replaceAllAux fuel (rest.drop (old.length - 1)) old new
    else
      c :: replaceAllAux fuel rest old new

/-- Go `strings.ReplaceAll(s, old, new)` for non-empty `old` (the only way
`config.go` calls it; the `old = []` guard is a stand-in for Go's
interleaving behaviour on an empty pattern, which the source never hits). -/
def replaceAllL (s old new : List Char) : List Char :=
  if old = [] then s else replaceAllAux s.length s old new

/-- Fuel-driven worker for `splitOnSub`, the greedy leftmost split on a
pattern (Go `strings.Split`). -/
def splitOnAux : Nat → List Char → List Char → List (List Char)
  | 0, s, _ => [s]
  | _ + 1, [], _ => [[]]
  | fuel + 1, c :: rest, old =>
    if hasPref old (c :: rest) then
      [] :: splitOnAux fuel (rest.drop (old.length - 1)) old
    else
      match splitOnAux fuel rest old with
      | [] => [[c]]
      | t :: ts => (c :: t) :: ts

/-- Go `strings.Split(s, old)` for non-empty `old`. -/
def splitOnSub (s old : List Char) : List (List Char) :=
  if old = [] then [s] else splitOnAux s.length s old

/-- Join a list of segments with a separator; `replaceAllL s old new` equals
`joinWith new (splitOnSub s old)`. -/
def joinWith (sep : List Char) : List (List Char) → List Char
  | [] => []
  | [x] => x
  | x :: y :: zs => x ++ sep ++ joinWith sep (y :: zs)

/-- String wrapper for `replaceAllL` (Go `strings.ReplaceAll`). -/
def goReplaceAll (s old new : String) : String :=
  ⟨replaceAllL s.data old.data new.data⟩

/-- String wrapper for `containsSub` (Go `strings.Contains`). -/
def goContains (s sub : String) : Bool :=
  containsSub sub.data s.data

/-- Go `strings.ToLower` (ASCII fragment, which is all `config.go` feeds it). -/
def goToLower (s : String) : String :=
  ⟨s.data.map Char.toLower⟩

/-- Go `strings.Split(s, sep)` wrapper returning strings. -/
def goSplit (s sep : String) : List String :=
  (splitOnSub s.data sep.data).map fun cs => ⟨cs⟩

/-- First line of a command output: `strings.Split(out, "\n")[0]`. -/
def firstLine (s : String) : String :=
  ⟨s.data.takeWhile (fun c => c ≠ '\n')⟩

/-! ## `path/filepath` boundary (modelled from Go semantics for already-clean,
multi-component paths, the only shape the claims evaluate them at) -/

/-- Go `filepath.Dir` for a clean path with at least one separator and a
non-root parent; paths with no separator give `"."` like Go. -/
def filepathDir (p : String) : String :=
  let r := (((p.data.reverse).dropWhile (fun c => c ≠ '/')).drop 1).reverse
  if r = [] then "." else ⟨r⟩

/-- Go `filepath.Join` of two non-empty clean components. -/
def filepathJoin (a b : String) : String :=
  if a = "" then b else if b = "" then a else a ++ "/" ++ b

/-! ## `encoding/hex` (`hex.EncodeToString`) -/

/-- Lower-case hex digit for a nibble value. -/
def hexDigitChar (n : Nat) : Char :=
  if n < 10 then Char.ofNat ('0'.toNat + n) else Char.ofNat ('a'.toNat + n - 10)

/-- Two lower-case hex characters of one byte. -/
def hexEncodeByte (b : Fin 256) : List Char :=
  [hexDigitChar (b.val / 16), hexDigitChar (b.val % 16)]

/-- Hex characters of a byte sequence. -/
def hexEncodeBytes : List (Fin 256) → List Char
  | [] => []
  | b :: bs => hexEncodeByte b ++ hexEncodeBytes bs

/-- Go `hex.EncodeToString`. -/
def hexEncode (bs : List (Fin 256)) : String :=
  ⟨hexEncodeBytes bs⟩

/-- Recognizer for lower-case hexadecimal characters. -/
def isLowerHexChar (ch : Char) : Bool :=
  ('0' ≤ ch && ch ≤ '9') || ('a' ≤ ch && ch ≤ 'f')

/-! ## Data model

Modelled from the spec: the `model.Configuration` struct embedded by
`config.Configuration` is not part of the excerpt; its three sub-records and
their fields are reconstructed from spec §3 and from every field access in
`config.go` (flag registrations, placeholder substitution, validation). -/

structure ServerConf where
  folder : String
  fileName : String
  version : String
  protocol : Int
deriving DecidableEq, Repr

structure CommandsConf where
  startServer : String
  startServerParam : String
  stopServerAllowKill : Int
deriving DecidableEq, Repr

structure MshConf where
  id : String
  debug : Int
  allowSuspend : Bool
  infoHibernation : String
  infoStarting : String
  notifyUpdate : Bool
  notifyMessage : Bool
  listenPort : Int
  timeBeforeStoppingEmptyServer : Int
deriving DecidableEq, Repr

structure Configuration where
  server : ServerConf
  commands : CommandsConf
  msh : MshConf
deriving DecidableEq, Repr

/-- The fixed config file name (`configFileName` in `config.go`). -/
def configFileName : String := "msh-config.json"

/-- The path `Save` actually writes to: `ioutil.WriteFile(configFileName, …)`
passes the bare file name, resolved by the OS against the process working
directory. -/
def savePath : String := configFileName

/-- The path `loadDefault` reads from:
`filepath.Join(filepath.Dir(mshPath), configFileName)`. -/
def loadPath (mshPath : String) : String :=
  filepathJoin (filepathDir mshPath) configFileName

/-- Modelled from the spec: the save location the spec claims —
"the fixed file name beside the executable" (§4.1) — for comparison with
`savePath`, the location the source actually writes. -/
def claimedSavePath (mshPath : String) : String :=
  filepathJoin (filepathDir mshPath) configFileName

/-! ## JSON value-level codec

Modelled from the spec: `Save` uses `json.MarshalIndent` and `loadDefault`
uses `json.Unmarshal` (Go standard library, outside the excerpt).  The codec
is embedded at the structured-value level (§4.1 "pretty-printed structured
text"; the whitespace layer carries no field information). -/

inductive Jval where
  | str : String → Jval
  | num : Int → Jval
  | jbool : Bool → Jval
  | obj : List (String × Jval) → Jval

/-- Field lookup in a JSON object body. -/
def jLookup : List (String × Jval) → String → Option Jval
  | [], _ => none
  | (k, v) :: rest, key => if k = key then some v else jLookup rest key

def asStr : Option Jval → Option String
  | some (Jval.str s) => some s
  | _ => none

def asNum : Option Jval → Option Int
  | some (Jval.num n) => some n
  | _ => none

def asBool : Option Jval → Option Bool
  | some (Jval.jbool b) => some b
  | _ => none

def asObj : Option Jval → Option (List (String × Jval))
  | some (Jval.obj fs) => some fs
  | _ => none

def marshalServer (s : ServerConf) : Jval :=
  Jval.obj [("Folder", Jval.str s.folder), ("FileName", Jval.str s.fileName),
    ("Version", Jval.str s.version), ("Protocol", Jval.num s.protocol)]

def marshalCommands (c : CommandsConf) : Jval :=
  Jval.obj [("StartServer", Jval.str c.startServer),
    ("StartServerParam", Jval.str c.startServerParam),
    ("StopServerAllowKill", Jval.num c.stopServerAllowKill)]

def marshalMsh (m : MshConf) : Jval :=
  Jval.obj [("ID", Jval.str m.id), ("Debug", Jval.num m.debug),
    ("AllowSuspend", Jval.jbool m.allowSuspend),
    ("InfoHibernation", Jval.str m.infoHibernation),
    ("InfoStarting", Jval.str m.infoStarting),
    ("NotifyUpdate", Jval.jbool m.notifyUpdate),
    ("NotifyMessage", Jval.jbool m.notifyMessage),
    ("ListenPort", Jval.num m.listenPort),
    ("TimeBeforeStoppingEmptyServer", Jval.num m.timeBeforeStoppingEmptyServer)]

/-- Serialization of the whole configuration (field layer of `Save`). -/
def marshalConfig (c : Configuration) : Jval :=
  Jval.obj [("Server", marshalServer c.server),
    ("Commands", marshalCommands c.commands), ("Msh", marshalMsh c.msh)]

def unmarshalServer (j : Jval) : Option ServerConf := do
  let fs ← asObj (some j)
  let folder ← asStr (jLookup fs "Folder")
  let fileName ← asStr (jLookup fs "FileName")
  let version ← asStr (jLookup fs "Version")
  let protocol ← asNum (jLookup fs "Protocol")
  pure ⟨folder, fileName, version, protocol⟩

def unmarshalCommands (j : Jval) : Option CommandsConf := do
  let fs ← asObj (some j)
  let startServer ← asStr (jLookup fs "StartServer")
  let startServerParam ← asStr (jLookup fs "StartServerParam")
  let stopServerAllowKill ← asNum (jLookup fs "StopServerAllowKill")
  pure ⟨startServer, startServerParam, stopServerAllowKill⟩

def unmarshalMsh (j : Jval) : Option MshConf := do
  let fs ← asObj (some j)
  let id ← asStr (jLookup fs "ID")
  let debug ← asNum (jLookup fs "Debug")
  let allowSuspend ← asBool (jLookup fs "AllowSuspend")
  let infoHibernation ← asStr (jLookup fs "InfoHibernation")
  let infoStarting ← asStr (jLookup fs "InfoStarting")
  let notifyUpdate ← asBool (jLookup fs "NotifyUpdate")
  let notifyMessage ← asBool (jLookup fs "NotifyMessage")
  let listenPort ← asNum (jLookup fs "ListenPort")
  let timeBefore ← asNum (jLookup fs "TimeBeforeStoppingEmptyServer")
  pure ⟨id, debug, allowSuspend, infoHibernation, infoStarting, notifyUpdate,
    notifyMessage, listenPort, timeBefore⟩

/-- Deserialization of the whole configuration (field layer of
`json.Unmarshal` in `loadDefault`). -/
def unmarshalConfig (j : Jval) : Option Configuration := do
  let fs ← asObj (some j)
  let server ← (jLookup fs "Server").bind fun v => unmarshalServer v
  let commands ← (jLookup fs "Commands").bind fun v => unmarshalCommands v
  let msh ← (jLookup fs "Msh").bind fun v => unmarshalMsh v
  pure ⟨server, commands, msh⟩

/-! ## Command-line overlay (`flag.XxxVar` registrations + `flag.Parse` in
`loadRuntime`, lines 172–198): every registered flag defaults to the current
(copied-from-default) field value and overwrites it only when supplied. -/

structure Flags where
  folder : Option String := none
  file : Option String := none
  version : Option String := none
  protocol : Option Int := none
  msparam : Option String := none
  allowkill : Option Int := none
  id : Option String := none
  d : Option Int := none
  allowsuspend : Option Bool := none
  infohibe : Option String := none
  infostar : Option String := none
  notifyupd : Option Bool := none
  notifymes : Option Bool := none
  port : Option Int := none
  timeout_ : Option Int := none
deriving Repr

/-- The overlay: copy of the default with each supplied flag applied. -/
def overlay (c : Configuration) (fl : Flags) : Configuration :=
  { server :=
      { folder := fl.folder.getD c.server.folder
        fileName := fl.file.getD c.server.fileName
        version := fl.version.getD c.server.version
        protocol := fl.protocol.getD c.server.protocol }
    commands :=
      { startServer := c.commands.startServer
        startServerParam := fl.msparam.getD c.commands.startServerParam
        stopServerAllowKill := fl.allowkill.getD c.commands.stopServerAllowKill }
    msh :=
      { id := fl.id.getD c.msh.id
        debug := fl.d.getD c.msh.debug
        allowSuspend := fl.allowsuspend.getD c.msh.allowSuspend
        infoHibernation := fl.infohibe.getD c.msh.infoHibernation
        infoStarting := fl.infostar.getD c.msh.infoStarting
        notifyUpdate := fl.notifyupd.getD c.msh.notifyUpdate
        notifyMessage := fl.notifymes.getD c.msh.notifyMessage
        listenPort := fl.port.getD c.msh.listenPort
        timeBeforeStoppingEmptyServer :=
          fl.timeout_.getD c.msh.timeBeforeStoppingEmptyServer } }

/-- Placeholder substitution (`loadRuntime` lines 201–202): both tokens are
replaced with `strings.ReplaceAll` in the start-command template. -/
def substitutePlaceholders (c : Configuration) : Configuration :=
  { c with commands :=
      { c.commands with startServer :=
          (goReplaceAll
            (goReplaceAll c.commands.startServer "<Server.FileName>"
              c.server.fileName)
            "<Commands.StartServerParam>" c.commands.startServerParam) } }

/-- Identity reconciliation (`loadRuntime` lines 216–224): when the runtime
id differs from the default id, a 40-character runtime id is promoted into
the default config and the dirty flag is set; otherwise only a warning is
logged.  Returns the (possibly updated) default config and dirty flag; the
runtime config is not modified by this step. -/
def reconcileMshID (confdef c : Configuration) (dirty : Bool) :
    Configuration × Bool :=
  if confdef.msh.id ≠ c.msh.id then
    if c.msh.id.length = 40 then
      ({ confdef with msh := { confdef.msh with id := c.msh.id } }, true)
    else
      (confdef, dirty)
  else
    (confdef, dirty)

/-- Modelled from the spec: `assignMshID`'s body is not part of the excerpt
(only its call sites in `loadDefault` are); modelled from `config.go`'s own
comment at lines 129–133 — "get default config mshid, if fail: generate
mshid (and save it to default config)" — an already-present identity is kept,
otherwise the freshly generated identity `gen` is assigned and the dirty flag
set. -/
def assignMshID (gen : String) (c : Configuration) (dirty : Bool) :
    Configuration × Bool :=
  if c.msh.id = "" then
    ({ c with msh := { c.msh with id := gen } }, true)
  else
    (c, dirty)

/-- Identity derivation (`loadDefault` lines 134–148).  `machineId` is the
result of `machineid.ProtectedID("msh")`, `exePath2` the second
`os.Executable()` call, `sha1` the SHA-1 boundary (a 20-byte digest), and
`genDigest` the digest backing the generated fallback identity inside
`assignMshID`.  On double success the identity becomes
`hex(sha1(machineId ++ dir(exePath2)))` and the dirty flag is set when it
differs from the stored one. -/
def deriveStep (machineId exePath2 : Option String)
    (sha1 : String → List (Fin 256)) (genDigest : List (Fin 256))
    (c : Configuration) (dirty : Bool) : Configuration × Bool :=
  match machineId with
  | none => assignMshID (hexEncode genDigest) c dirty
  | some mid =>
    match exePath2 with
    | none => assignMshID (hexEncode genDigest) c dirty
    | some ex =>
      let newId := hexEncode (sha1 (mid ++ filepathDir ex))
      if c.msh.id ≠ newId then
        ({ c with msh := { c.msh with id := newId } }, true)
      else
        (c, dirty)

/-- Version/protocol probe (`loadDefault` lines 152–160): on probe failure
only a log line is produced; on success both fields are overwritten and the
dirty flag set when either value changed. -/
def probeStep (probe : Option (String × Int)) (c : Configuration)
    (dirty : Bool) : Configuration × Bool :=
  match probe with
  | none => (c, dirty)
  | some (version, protocol) =>
    if c.server.version ≠ version ∨ c.server.protocol ≠ protocol then
      ({ c with server :=
          { c.server with version := version, protocol := protocol } }, true)
    else
      (c, dirty)

/-! ## Environment validation (`loadRuntime` lines 226–301) -/

/-- Soft statuses written into `servstats.Stats.Error`. -/
inductive StatusCode where
  | serverMissing
  | couldNotStartServer
  | eulaNotAccepted
  | javaNotInstalled
  | proxySetupFailed
deriving DecidableEq, Repr

inductive EulaDecision where
  | accepted
  | notAccepted
deriving DecidableEq, Repr

/-- One launch of the configured start command (`exec.Command` +
`cmd.Dir = c.Server.Folder` + `cmd.Run()` at lines 248–254). -/
structure Launch where
  argv : List String
  dir : String
deriving DecidableEq, Repr

/-- Boundary inputs of the validation phase: filesystem, subprocess and
search-path observations. -/
structure Env where
  serverFileExists : Bool
  eulaRead : Option String
  eulaAfterLaunch : Option String
  launchOk : Bool
  javaInPath : Bool
  javaVersionOut : Option String
  ipPortsOk : Bool
  iconOk : Bool
deriving Repr

/-- Normalization applied to the eula file contents (line 262):
`strings.ReplaceAll(strings.ToLower(data), " ", "")`. -/
def normalizeEula (s : String) : String :=
  goReplaceAll (goToLower s) " " ""

/-- The acceptance test of line 262: normalized contents contain
`"eula=true"`. -/
def eulaAccepts (s : String) : Bool :=
  goContains (normalizeEula s) "eula=true"

/-- Statuses recorded by the eula switch.  The `none` (unreadable) case
launches the server and then — via Go's `fallthrough`, which skips the next
case's condition — records the "not accepted" status unconditionally; the
file is never re-read, so `Env.eulaAfterLaunch` is (faithfully) unused. -/
def eulaStatuses (env : Env) : List StatusCode :=
  match env.eulaRead with
  | none =>
    (if env.launchOk then [] else [StatusCode.couldNotStartServer]) ++
      [StatusCode.eulaNotAccepted]
  | some data =>
    if eulaAccepts data then [] else [StatusCode.eulaNotAccepted]

/-- Launches performed by the eula switch (`strings.Split` of the start
command on a space, run in the server folder). -/
def eulaLaunches (c : Configuration) (env : Env) : List Launch :=
  match env.eulaRead with
  | none => [⟨goSplit c.commands.startServer " ", c.server.folder⟩]
  | some _ => []

/-- Terminal decision of the eula switch (`none` when the whole check was
skipped because the server file/folder is missing). -/
def eulaDecisionOf (env : Env) : Option EulaDecision :=
  match env.eulaRead with
  | none => some EulaDecision.notAccepted
  | some data =>
    if eulaAccepts data then some EulaDecision.accepted
    else some EulaDecision.notAccepted

/-- First line of `java --version` output with `"\r"` removed (line 285). -/
def javavOf (out : String) : String :=
  goReplaceAll (firstLine out) "\r" ""

/-- Final value of the global `Javav` (`none` = left untouched). -/
def javavResult (env : Env) : Option String :=
  if env.javaInPath then
    match env.javaVersionOut with
    | none => some "unknown"
    | some out => some (javavOf out)
  else
    none

/-- Result of the validation phase.  `statuses` lists every write to
`servstats.Stats.Error` in program order (the shared slot holds the last
one); `javaChecked` records that `exec.LookPath("java")` ran. -/
structure ValidationResult where
  statuses : List StatusCode
  launches : List Launch
  eulaDecision : Option EulaDecision
  javaChecked : Bool
  javav : Option String
deriving Repr

/-- The validation phase of `loadRuntime` (lines 226–301): server-presence
check gating the eula switch, then — unconditionally — the java check and
the proxy/icon setup. -/
def validateEnv (c : Configuration) (env : Env) : ValidationResult :=
  let serverPart : List StatusCode × List Launch × Option EulaDecision :=
    if env.serverFileExists then
      (eulaStatuses env, eulaLaunches c env, eulaDecisionOf env)
    else
      ([StatusCode.serverMissing], [], none)
  let javaPart : List StatusCode :=
    if env.javaInPath then [] else [StatusCode.javaNotInstalled]
  let proxyPart : List StatusCode :=
    if env.ipPortsOk then [] else [StatusCode.proxySetupFailed]
  { statuses := serverPart.1 ++ javaPart ++ proxyPart
    launches := serverPart.2.1
    eulaDecision := serverPart.2.2
    javaChecked := true
    javav := javavResult env }

/-! ## The bootstrap pipeline -/

/-- Result of `loadRuntime`.  The function body has no failing return path:
`err` is always `none`. -/
structure RuntimeResult where
  runtime : Configuration
  confdef : Configuration
  dirty : Bool
  validation : ValidationResult
  debugLvl : Int
  err : Option Unit
deriving Repr

/-- `loadRuntime` (lines 167–303): copy the default, overlay flags,
substitute placeholders, set the debug level, reconcile the identity into
the default config, then validate the environment. -/
def loadRuntimeModel (confdef : Configuration) (fl : Flags) (env : Env)
    (dirty : Bool) : RuntimeResult :=
  let c := substitutePlaceholders (overlay confdef fl)
  let rec1 := reconcileMshID confdef c dirty
  { runtime := c
    confdef := rec1.1
    dirty := rec1.2
    validation := validateEnv c env
    debugLvl := c.msh.debug
    err := none }

/-- Boundary inputs of `loadDefault`: both `os.Executable()` calls, the
combined read+unmarshal of the config file, the machine id, the generated
fallback digest and the version probe. -/
structure DefaultEnv where
  exePath : Option String
  fileConfig : Option Configuration
  machineId : Option String
  exePath2 : Option String
  genDigest : List (Fin 256)
  probe : Option (String × Int)

/-- `loadDefault` (lines 107–163): fatal (`none`) when the executable path
or the file read/unmarshal fails; otherwise runs identity derivation and the
version probe. -/
def loadDefaultModel (sha1 : String → List (Fin 256)) (de : DefaultEnv)
    (dirty : Bool) : Option (Configuration × Bool) :=
  match de.exePath with
  | none => none
  | some _ =>
    match de.fileConfig with
    | none => none
    | some c0 =>
      let s1 := deriveStep de.machineId de.exePath2 sha1 de.genDigest c0 dirty
      let s2 := probeStep de.probe s1.1 s1.2
      some s2

/-- Outcome of `LoadConfig`: `ok = false` is the fatal path (error returned
before the save section), `ok = true` is the ready state. -/
structure BootstrapResult where
  ok : Bool
  dirty : Bool
  saveInvoked : Bool
  confdef : Option Configuration
  runtime : Option Configuration
  validation : Option ValidationResult

/-- `LoadConfig` (lines 47–84): OS-support gate, `loadDefault`,
`loadRuntime`, then `Save` exactly when the dirty flag
(`ConfigDefaultSave`, initially `false`) is set. -/
def loadConfigModel (osOk : Bool) (sha1 : String → List (Fin 256))
    (de : DefaultEnv) (fl : Flags) (env : Env) : BootstrapResult :=
  if osOk then
    match loadDefaultModel sha1 de false with
    | none => ⟨false, false, false, none, none, none⟩
    | some (cfgd, d1) =>
      let r := loadRuntimeModel cfgd fl env d1
      { ok := true
        dirty := r.dirty
        saveInvoked := r.dirty
        confdef := some r.confdef
        runtime := some r.runtime
        validation := some r.validation }
  else
    ⟨false, false, false, none, none, none⟩

/-! ## Auxiliary definitions used by the statements and their witnesses -/

/-- Length-based identity invariant: empty (not yet derived) or exactly 40
characters. -/
def idLenInvariant (c : Configuration) : Prop :=
  c.msh.id = "" ∨ c.msh.id.length = 40

/-- Claimed (spec §3) identity invariant: empty or exactly 40 *lower-case
hexadecimal* characters. -/
def idHexInvariant (c : Configuration) : Prop :=
  c.msh.id = "" ∨
    (c.msh.id.length = 40 ∧ c.msh.id.data.all isLowerHexChar = true)

/-- Identity-derivation stage of the pipeline, entered with a clear dirty
flag. -/
def derivedOf (sha1 : String → List (Fin 256)) (de : DefaultEnv)
    (c0 : Configuration) : Configuration × Bool :=
  deriveStep de.machineId de.exePath2 sha1 de.genDigest c0 false

/-- Version-probe stage of the pipeline, entered with a clear dirty flag. -/
def probedOf (de : DefaultEnv) (c1 : Configuration) : Configuration × Bool :=
  probeStep de.probe c1 false

/-- Identity-promotion stage of the pipeline, entered with a clear dirty
flag. -/
def promotedOf (fl : Flags) (cfgd : Configuration) : Configuration × Bool :=
  reconcileMshID cfgd (substitutePlaceholders (overlay cfgd fl)) false

/-- An empty flag set (no command-line overrides supplied). -/
def flagsNone : Flags := {}

/-- A sample configuration (identity not yet derived). -/
def cfgSample : Configuration :=
  ⟨⟨"/srv/minecraft", "server.jar", "1.19", 759⟩,
   ⟨"java <Commands.StartServerParam> -jar <Server.FileName> nogui",
    "-Xmx1024M", 10⟩,
   ⟨"", 1, true, "hibernating", "starting", true, true, 25555, 30⟩⟩

/-- A 40-character lower-case hex identity. -/
def idHex40 : String := "0123456789abcdef0123456789abcdef01234567"

/-- A 40-character identity that is not hexadecimal. -/
def idBad40 : String := "ZZZZZZZZZZZZZZZZZZZZZZZZZZZZZZZZZZZZZZZZ"

/-- Sample configuration with a healthy hex identity. -/
def cfgHex : Configuration :=
  { cfgSample with msh := { cfgSample.msh with id := idHex40 } }

/-- Sample configuration with a 40-character non-hex identity. -/
def cfgBad : Configuration :=
  { cfgSample with msh := { cfgSample.msh with id := idBad40 } }

/-- A concrete 20-byte digest boundary for witnesses. -/
def sha1Stub : String → List (Fin 256) := fun _ => List.replicate 20 0

/-- A concrete 20-byte generated-identity digest for witnesses. -/
def digestStub : List (Fin 256) := List.replicate 20 171

/-- Server file present, eula file unreadable, launch succeeds, and the file
would contain an accepting eula afterwards. -/
def envEulaMissing : Env :=
  ⟨true, none, some "eula=true", true, true, some "java 17.0.1 2021", true, true⟩

/-- Server file present, eula file readable with mixed-case spaced content. -/
def envEulaMixed : Env :=
  ⟨true, some "EULA = True", none, true, true, none, true, true⟩

/-- Server file present, eula file readable and not accepting. -/
def envEulaFalse : Env :=
  ⟨true, some "eula=false", none, true, true, none, true, true⟩

/-- Server file/folder missing; java also missing from the search path. -/
def envServerMissing : Env :=
  ⟨false, none, none, true, false, none, true, true⟩

/-- A sample `loadDefault` boundary where everything succeeds. -/
def deSample : DefaultEnv :=
  ⟨some "/opt/msh/msh", some cfgSample, some "machine-1", some "/opt/msh/msh",
   digestStub, some ("1.19.2", 760)⟩

/-! ## Lemmas about the string primitives -/

theorem hasPref_iff (p : List Char) : ∀ s, hasPref p s = true ↔ p <+: s := by
  induction p with
  | nil =>
    intro s
    constructor
    · intro _; exact ⟨s, rfl⟩
    · intro _; rfl
  | cons a ps ih =>
    intro s
    cases s with
    | nil =>
      simp only [hasPref]
      constructor
      · intro h; cases h
      · rintro ⟨t, ht⟩; cases ht
    | cons b t =>
      simp only [hasPref, Bool.and_eq_true, decide_eq_true_eq, ih,
        List.cons_prefix_cons]

theorem notInfixNil {p : List Char} (hp : p ≠ []) : ¬ p <:+: ([] : List Char) := by
  rintro ⟨s, t, hst⟩
  have hlen := congrArg List.length hst
  simp only [List.length_append, List.length_nil] at hlen
  exact hp (List.length_eq_zero.mp (by omega))

theorem infixOfCons {p : List Char} {a : Char} {l : List Char}
    (h : p <:+: a :: l) : p <+: a :: l ∨ p <:+: l := by
  obtain ⟨s, t, hst⟩ := h
  cases s with
  | nil => exact Or.inl ⟨t, by simpa using hst⟩
  | cons b s' =>
    rw [List.cons_append, List.cons_append] at hst
    injection hst with h1 h2
    exact Or.inr ⟨s', t, h2⟩

theorem splitOnAux_ne_nil (fuel : Nat) (s old : List Char) :
    splitOnAux fuel s old ≠ [] := by
  match fuel, s with
  | 0, s => simp [splitOnAux]
  | fuel + 1, [] => simp [splitOnAux]
  | fuel + 1, c :: rest =>
    simp only [splitOnAux]
    split
    · simp
    · split <;> simp

theorem splitOnAux_parts (old : List Char) (hOld : old ≠ []) :
    ∀ fuel s, s.length ≤ fuel →
      ∃ t ts, splitOnAux fuel s old = t :: ts ∧ t <+: s ∧
        ∀ part ∈ t :: ts, ¬ old <:+: part := by
  intro fuel
  induction fuel with
  | zero =>
    intro s hs
    have hnil : s = [] := List.length_eq_zero.mp (Nat.le_zero.mp hs)
    subst hnil
    refine ⟨[], [], rfl, ⟨[], rfl⟩, ?_⟩
    intro part hmem
    rcases List.mem_cons.mp hmem with h1 | h2
    · subst h1; exact notInfixNil hOld
    · cases h2
  | succ fuel ih =>
    intro s hs
    cases s with
    | nil =>
      refine ⟨[], [], rfl, ⟨[], rfl⟩, ?_⟩
      intro part hmem
      rcases List.mem_cons.mp hmem with h1 | h2
      · subst h1; exact notInfixNil hOld
      · cases h2
    | cons c rest =>
      have hrest : rest.length ≤ fuel := by
        simpa using Nat.succ_le_succ_iff.mp (by simpa using hs)
      by_cases hp : hasPref old (c :: rest) = true
      · have hdrop : (rest.drop (old.length - 1)).length ≤ fuel := by
          rw [List.length_drop]; omega
        obtain ⟨t', ts', heq', hpre', hfree'⟩ := ih _ hdrop
        refine ⟨[], t' :: ts', ?_, ⟨_, rfl⟩, ?_⟩
        · simp [splitOnAux, hp, heq']
        · intro part hmem
          rcases List.mem_cons.mp hmem with h1 | h2
          · subst h1; exact notInfixNil hOld
          · exact hfree' part h2
      · obtain ⟨t, ts, heq, hpre, hfree⟩ := ih rest hrest
        refine ⟨c :: t, ts, ?_, ?_, ?_⟩
        · simp [splitOnAux, hp, heq]
        · exact List.cons_prefix_cons.mpr ⟨rfl, hpre⟩
        · intro part hmem
          rcases List.mem_cons.mp hmem with h1 | h2
          · subst h1
            intro hinf
            rcases infixOfCons hinf with hpre2 | hinf2
            · have hpc : c :: t <+: c :: rest :=
                List.cons_prefix_cons.mpr ⟨rfl, hpre⟩
              exact hp ((hasPref_iff old (c :: rest)).mpr (hpre2.trans hpc))
            · exact hfree t (List.mem_cons_self t ts) hinf2
          · exact hfree part (List.mem_cons_of_mem t h2)

theorem replaceAllAux_joinWith (old new : List Char) (_hOld : old ≠ []) :
    ∀ fuel s, s.length ≤ fuel →
      replaceAllAux fuel s old new = joinWith new (splitOnAux fuel s old) := by
  intro fuel
  induction fuel with
  | zero =>
    intro s hs
    have hnil : s = [] := List.length_eq_zero.mp (Nat.le_zero.mp hs)
    subst hnil
    rfl
  | succ fuel ih =>
    intro s hs
    cases s with
    | nil => rfl
    | cons c rest =>
      have hrest : rest.length ≤ fuel := by
        simpa using Nat.succ_le_succ_iff.mp (by simpa using hs)
      by_cases hp : hasPref old (c :: rest) = true
      · have hdrop : (rest.drop (old.length - 1)).length ≤ fuel := by
          rw [List.length_drop]; omega
        obtain ⟨t', ts', heq'⟩ :=
          List.exists_cons_of_ne_nil
            (splitOnAux_ne_nil fuel (rest.drop (old.length - 1)) old)
        simp only [replaceAllAux, splitOnAux, hp, if_true]
        rw [ih _ hdrop, heq']
        simp [joinWith]
      · obtain ⟨t, ts, heq⟩ :=
          List.exists_cons_of_ne_nil (splitOnAux_ne_nil fuel rest old)
        simp only [replaceAllAux, splitOnAux, hp, if_false]
        rw [ih rest hrest, heq]
        cases ts with
        | nil => rfl
        | cons u us => simp [joinWith]

theorem replaceAllL_joinWith (s old new : List Char) (hOld : old ≠ []) :
    replaceAllL s old new = joinWith new (splitOnSub s old) := by
  unfold replaceAllL splitOnSub
  rw [if_neg hOld, if_neg hOld]
  exact replaceAllAux_joinWith old new hOld s.length s le_rfl

theorem splitOnSub_parts (s old : List Char) (hOld : old ≠ []) :
    ∀ part ∈ splitOnSub s old, ¬ old <:+: part := by
  unfold splitOnSub
  rw [if_neg hOld]
  obtain ⟨t, ts, heq, _, hfree⟩ := splitOnAux_parts old hOld s.length s le_rfl
  rw [heq]
  exact hfree

/-- C9: after the command-line overlay, placeholder substitution replaces
every occurrence (not just the first) of `<Server.FileName>` and
`<Commands.StartServerParam>` in the start-command template: the
substitution step is `strings.ReplaceAll` for both tokens, and for any
non-empty pattern `replaceAllL` rewrites the template into its greedy split
segments — none of which still contains the pattern — joined by the
replacement value, so every occurrence of the token is replaced. -/
theorem substitution_replaces_all_occurrences (c : Configuration)
    (s old new : List Char) (hOld : old ≠ []) :
    (substitutePlaceholders c).commands.startServer =
        goReplaceAll
          (goReplaceAll c.commands.startServer "<Server.FileName>"
            c.server.fileName)
          "<Commands.StartServerParam>" c.commands.startServerParam
    ∧ replaceAllL s old new = joinWith new (splitOnSub s old)
    ∧ ∀ part ∈ splitOnSub s old, ¬ old <:+: part :=
  ⟨rfl, replaceAllL_joinWith s old new hOld, splitOnSub_parts s old hOld⟩

/-- Witness for C9 at a template with two occurrences of the token. -/
theorem substitution_replaces_all_occurrences_witness :
    (substitutePlaceholders cfgSample).commands.startServer =
        goReplaceAll
          (goReplaceAll cfgSample.commands.startServer "<Server.FileName>"
            cfgSample.server.fileName)
          "<Commands.StartServerParam>" cfgSample.commands.startServerParam
    ∧ replaceAllL "ab ab".data "ab".data "x".data =
        joinWith "x".data (splitOnSub "ab ab".data "ab".data)
    ∧ ∀ part ∈ splitOnSub "ab ab".data "ab".data, ¬ "ab".data <:+: part :=
  substitution_replaces_all_occurrences cfgSample "ab ab".data "ab".data
    "x".data (by decide)

/-! ## Validation-phase theorems -/

/-- C8 (confirmed): the acceptance-gate content is matched after lower-casing
and space-stripping: a readable `"EULA = True"` is accepted (no status, no
launch), a readable `"eula=false"` records the soft "not accepted" status and
launches no external process. -/
theorem eula_gate_normalization (c : Configuration) (env : Env) :
    (env.serverFileExists = true → env.eulaRead = some "EULA = True" →
      (validateEnv c env).eulaDecision = some EulaDecision.accepted
      ∧ (validateEnv c env).launches = []
      ∧ StatusCode.eulaNotAccepted ∉ (validateEnv c env).statuses)
    ∧ (env.serverFileExists = true → env.eulaRead = some "eula=false" →
      (validateEnv c env).eulaDecision = some EulaDecision.notAccepted
      ∧ StatusCode.eulaNotAccepted ∈ (validateEnv c env).statuses
      ∧ (validateEnv c env).launches = []) := by
  obtain ⟨sfe, er, eal, lok, jip, jvo, ipo, ico⟩ := env
  constructor
  · intro h1 h2
    cases h1; cases h2
    have hacc : eulaAccepts "EULA = True" = true := by decide
    cases jip <;> cases ipo <;>
      simp [validateEnv, eulaStatuses, eulaLaunches, eulaDecisionOf, hacc]
  · intro h1 h2
    cases h1; cases h2
    have hacc : eulaAccepts "eula=false" = false := by decide
    cases jip <;> cases ipo <;>
      simp [validateEnv, eulaStatuses, eulaLaunches, eulaDecisionOf, hacc]

/-- Witness for C8 at the two concrete environments. -/
theorem eula_gate_normalization_witness :
    ((validateEnv cfgSample envEulaMixed).eulaDecision =
        some EulaDecision.accepted
      ∧ (validateEnv cfgSample envEulaMixed).launches = []
      ∧ StatusCode.eulaNotAccepted ∉ (validateEnv cfgSample envEulaMixed).statuses)
    ∧ ((validateEnv cfgSample envEulaFalse).eulaDecision =
        some EulaDecision.notAccepted
      ∧ StatusCode.eulaNotAccepted ∈ (validateEnv cfgSample envEulaFalse).statuses
      ∧ (validateEnv cfgSample envEulaFalse).launches = []) :=
  ⟨(eula_gate_normalization cfgSample envEulaMixed).1 rfl rfl,
   (eula_gate_normalization cfgSample envEulaFalse).2 rfl rfl⟩

/-- C1 counterexample: with the eula file initially unreadable and an
accepting eula file content after the bootstrap launch, the recorded decision
is still "not accepted" — the terminal decision is *not* made on the file
contents as they are after the bootstrap attempt (the `fallthrough` skips the
re-check and the file is never re-read). -/
theorem eula_missing_stale_decision :
    (validateEnv cfgSample envEulaMissing).eulaDecision =
        some EulaDecision.notAccepted
    ∧ StatusCode.eulaNotAccepted ∈ (validateEnv cfgSample envEulaMissing).statuses
    ∧ envEulaMissing.eulaAfterLaunch = some "eula=true"
    ∧ eulaAccepts "eula=true" = true
    ∧ (validateEnv cfgSample envEulaMissing).launches.length = 1 := by
  refine ⟨rfl, ?_, rfl, by decide, rfl⟩
  decide

/-- C1 (amended): whenever the eula file is unreadable, the bootstrap start
command is launched exactly once and the soft "not accepted" status is then
recorded unconditionally: the file is not re-read, the decision is
independent of the post-launch file contents, and the normalization check
applies only to the initially read contents. -/
theorem eula_missing_launch_then_unconditional (c : Configuration) (env : Env)
    (hex1 : env.serverFileExists = true) (hmiss : env.eulaRead = none) :
    (validateEnv c env).launches.length = 1
    ∧ (validateEnv c env).eulaDecision = some EulaDecision.notAccepted
    ∧ StatusCode.eulaNotAccepted ∈ (validateEnv c env).statuses
    ∧ ∀ x, validateEnv c { env with eulaAfterLaunch := x } = validateEnv c env := by
  obtain ⟨sfe, er, eal, lok, jip, jvo, ipo, ico⟩ := env
  cases hex1; cases hmiss
  refine ⟨rfl, rfl, ?_, fun x => rfl⟩
  cases lok <;> cases jip <;> cases ipo <;>
    simp [validateEnv, eulaStatuses, eulaLaunches, eulaDecisionOf]

/-- Witness for C1 (amended) at a concrete environment. -/
theorem eula_missing_launch_then_unconditional_witness :
    (validateEnv cfgSample envEulaMissing).launches.length = 1
    ∧ (validateEnv cfgSample envEulaMissing).eulaDecision =
        some EulaDecision.notAccepted
    ∧ StatusCode.eulaNotAccepted ∈ (validateEnv cfgSample envEulaMissing).statuses
    ∧ ∀ x, validateEnv cfgSample { envEulaMissing with eulaAfterLaunch := x } =
        validateEnv cfgSample envEulaMissing :=
  eula_missing_launch_then_unconditional cfgSample envEulaMissing rfl rfl

/-- C2 counterexample: with the server file/folder missing, the runtime-tool
check is still performed — `exec.LookPath("java")` runs and (java being
absent here) even records its own status — refuting "performs no
runtime-tool (java) check". -/
theorem server_missing_java_still_checked :
    envServerMissing.serverFileExists = false
    ∧ (loadRuntimeModel cfgSample flagsNone envServerMissing false).validation.javaChecked = true
    ∧ StatusCode.javaNotInstalled ∈
        (loadRuntimeModel cfgSample flagsNone envServerMissing false).validation.statuses := by
  refine ⟨rfl, rfl, ?_⟩
  decide

/-- C2 (amended): when the server folder/file path does not exist,
`loadRuntime` records the soft "server missing" status, skips the
acceptance-gate check and the start-command launch, and still returns
success — but the runtime-tool (java) check is nevertheless performed. -/
theorem server_missing_soft_skip (confdef : Configuration) (fl : Flags)
    (env : Env) (dirty : Bool) (hmiss : env.serverFileExists = false) :
    (loadRuntimeModel confdef fl env dirty).err = none
    ∧ StatusCode.serverMissing ∈
        (loadRuntimeModel confdef fl env dirty).validation.statuses
    ∧ (loadRuntimeModel confdef fl env dirty).validation.launches = []
    ∧ (loadRuntimeModel confdef fl env dirty).validation.eulaDecision = none
    ∧ (loadRuntimeModel confdef fl env dirty).validation.javaChecked = true := by
  obtain ⟨sfe, er, eal, lok, jip, jvo, ipo, ico⟩ := env
  cases hmiss
  refine ⟨rfl, ?_, rfl, rfl, rfl⟩
  cases jip <;> cases ipo <;> simp [loadRuntimeModel, validateEnv]

/-- Witness for C2 (amended) at a concrete environment. -/
theorem server_missing_soft_skip_witness :
    (loadRuntimeModel cfgSample flagsNone envServerMissing false).err = none
    ∧ StatusCode.serverMissing ∈
        (loadRuntimeModel cfgSample flagsNone envServerMissing false).validation.statuses
    ∧ (loadRuntimeModel cfgSample flagsNone envServerMissing false).validation.launches = []
    ∧ (loadRuntimeModel cfgSample flagsNone envServerMissing false).validation.eulaDecision = none
    ∧ (loadRuntimeModel cfgSample flagsNone envServerMissing false).validation.javaChecked = true :=
  server_missing_soft_skip cfgSample flagsNone envServerMissing false rfl

/-! ## Identity theorems -/

/-- C5 (confirmed): identity reconciliation promotes a runtime identity of
length exactly 40 into the default config and sets the dirty flag; a runtime
identity of any other length leaves the default identity and the dirty flag
unchanged; equal identities change nothing. -/
theorem identity_reconciliation_cases (confdef c : Configuration)
    (dirty : Bool) :
    (confdef.msh.id = c.msh.id → reconcileMshID confdef c dirty = (confdef, dirty))
    ∧ (confdef.msh.id ≠ c.msh.id → c.msh.id.length = 40 →
        reconcileMshID confdef c dirty =
          ({ confdef with msh := { confdef.msh with id := c.msh.id } }, true))
    ∧ (confdef.msh.id ≠ c.msh.id → c.msh.id.length ≠ 40 →
        reconcileMshID confdef c dirty = (confdef, dirty)) := by
  refine ⟨?_, ?_, ?_⟩
  · intro heq; simp [reconcileMshID, heq]
  · intro hne hlen; simp [reconcileMshID, hne, hlen]
  · intro hne hlen; simp [reconcileMshID, hne, hlen]

/-- Witness for C5 at concrete configurations covering all three branches. -/
theorem identity_reconciliation_cases_witness :
    reconcileMshID cfgHex cfgHex false = (cfgHex, false)
    ∧ reconcileMshID cfgSample cfgBad false =
        ({ cfgSample with msh := { cfgSample.msh with id := cfgBad.msh.id } }, true)
    ∧ reconcileMshID cfgHex cfgSample true = (cfgHex, true) :=
  ⟨(identity_reconciliation_cases cfgHex cfgHex false).1 rfl,
   (identity_reconciliation_cases cfgSample cfgBad false).2.1 (by decide) (by decide),
   (identity_reconciliation_cases cfgHex cfgSample true).2.2 (by decide) (by decide)⟩

/-- C10 (confirmed): when promotion is rejected because the runtime identity
length is not 40, the runtime config keeps the user-supplied identity and the
default config keeps its own, so after `loadRuntime` the two identity fields
differ. -/
theorem rejected_identity_keeps_divergence (confdef : Configuration)
    (fl : Flags) (env : Env) (dirty : Bool) (rid : String)
    (hfl : fl.id = some rid) (hne : rid ≠ confdef.msh.id)
    (hlen : rid.length ≠ 40) :
    (loadRuntimeModel confdef fl env dirty).runtime.msh.id = rid
    ∧ (loadRuntimeModel confdef fl env dirty).confdef.msh.id = confdef.msh.id
    ∧ (loadRuntimeModel confdef fl env dirty).runtime.msh.id ≠
        (loadRuntimeModel confdef fl env dirty).confdef.msh.id := by
  have hrt : (loadRuntimeModel confdef fl env dirty).runtime.msh.id = rid := by
    simp [loadRuntimeModel, substitutePlaceholders, overlay, hfl]
  have hne' : confdef.msh.id ≠ (substitutePlaceholders (overlay confdef fl)).msh.id := by
    simp [substitutePlaceholders, overlay, hfl]
    exact fun h => hne h.symm
  have hlen' : (substitutePlaceholders (overlay confdef fl)).msh.id.length ≠ 40 := by
    simpa [substitutePlaceholders, overlay, hfl] using hlen
  have hdef : (loadRuntimeModel confdef fl env dirty).confdef.msh.id = confdef.msh.id := by
    simp [loadRuntimeModel, reconcileMshID, hne', hlen']
  refine ⟨hrt, hdef, ?_⟩
  rw [hrt, hdef]
  exact hne

/-- Witness for C10 with a short user-supplied identity. -/
theorem rejected_identity_keeps_divergence_witness :
    (loadRuntimeModel cfgHex { flagsNone with id := some "user-id" } envEulaMixed false).runtime.msh.id = "user-id"
    ∧ (loadRuntimeModel cfgHex { flagsNone with id := some "user-id" } envEulaMixed false).confdef.msh.id = cfgHex.msh.id
    ∧ (loadRuntimeModel cfgHex { flagsNone with id := some "user-id" } envEulaMixed false).runtime.msh.id ≠
        (loadRuntimeModel cfgHex { flagsNone with id := some "user-id" } envEulaMixed false).confdef.msh.id :=
  rejected_identity_keeps_divergence cfgHex
    { flagsNone with id := some "user-id" } envEulaMixed false "user-id" rfl
    (by decide) (by decide)

/-- C4 counterexample: when obtaining the machine id fails and no identity is
stored yet, `assignMshID` *does* assign a freshly generated identity and sets
the dirty flag — the stored identity field is not left unchanged. -/
theorem derive_failure_assigns_identity :
    cfgSample.msh.id = ""
    ∧ (deriveStep none (some "/opt/msh/msh") sha1Stub digestStub cfgSample false).1.msh.id =
        hexEncode digestStub
    ∧ hexEncode digestStub ≠ ""
    ∧ (deriveStep none (some "/opt/msh/msh") sha1Stub digestStub cfgSample false).2 = true := by
  refine ⟨rfl, rfl, ?_, rfl⟩
  decide

/-- C4 (amended): when obtaining the machine id or the executable path fails,
a warning is logged and `assignMshID` runs: an already-present stored
identity is kept (and the dirty flag untouched), but an empty stored identity
is replaced by a freshly generated one with the dirty flag set. -/
theorem derive_failure_assign_branch (machineId exePath2 : Option String)
    (sha1 : String → List (Fin 256)) (gen : List (Fin 256))
    (c : Configuration) (dirty : Bool)
    (hfail : machineId = none ∨ exePath2 = none) :
    (c.msh.id ≠ "" →
      deriveStep machineId exePath2 sha1 gen c dirty = (c, dirty))
    ∧ (c.msh.id = "" →
      deriveStep machineId exePath2 sha1 gen c dirty =
        ({ c with msh := { c.msh with id := hexEncode gen } }, true)) := by
  constructor
  · intro hne
    rcases hfail with h | h
    · subst h; simp [deriveStep, assignMshID, hne]
    · subst h
      cases machineId with
      | none => simp [deriveStep, assignMshID, hne]
      | some mid => simp [deriveStep, assignMshID, hne]
  · intro hemp
    rcases hfail with h | h
    · subst h; simp [deriveStep, assignMshID, hemp]
    · subst h
      cases machineId with
      | none => simp [deriveStep, assignMshID, hemp]
      | some mid => simp [deriveStep, assignMshID, hemp]

/-- Witness for C4 (amended): stored identity present, machine id fails. -/
theorem derive_failure_assign_branch_witness :
    deriveStep none (some "/opt/msh/msh") sha1Stub digestStub cfgHex true =
      (cfgHex, true) :=
  (derive_failure_assign_branch none (some "/opt/msh/msh") sha1Stub digestStub
    cfgHex true (Or.inl rfl)).1 (by decide)

theorem hexDigitChar_lower : ∀ n, n < 16 → isLowerHexChar (hexDigitChar n) = true := by
  decide

theorem hexEncodeBytes_lowerHex (bs : List (Fin 256)) :
    ∀ ch ∈ hexEncodeBytes bs, isLowerHexChar ch = true := by
  induction bs with
  | nil => intro ch h; cases h
  | cons b bs ih =>
    intro ch h
    rcases List.mem_append.mp h with h1 | h2
    · have hdiv : b.val / 16 < 16 := by
        have hb := b.isLt
        exact (Nat.div_lt_iff_lt_mul (by norm_num)).mpr (by omega)
      have hmod : b.val % 16 < 16 := Nat.mod_lt _ (by norm_num)
      rcases List.mem_cons.mp h1 with h3 | h4
      · subst h3; exact hexDigitChar_lower _ hdiv
      · rcases List.mem_cons.mp h4 with h5 | h6
        · subst h5; exact hexDigitChar_lower _ hmod
        · cases h6
    · exact ih ch h2

theorem hexEncodeBytes_length (bs : List (Fin 256)) :
    (hexEncodeBytes bs).length = 2 * bs.length := by
  induction bs with
  | nil => rfl
  | cons b bs ih => simp [hexEncodeBytes, hexEncodeByte, ih]; omega

theorem hexEncode_length (bs : List (Fin 256)) :
    (hexEncode bs).length = 2 * bs.length :=
  hexEncodeBytes_length bs

theorem deriveStep_success_id (mid ex : String)
    (sha1 : String → List (Fin 256)) (gen : List (Fin 256))
    (c : Configuration) (dirty : Bool) :
    (deriveStep (some mid) (some ex) sha1 gen c dirty).1.msh.id =
      hexEncode (sha1 (mid ++ filepathDir ex)) := by
  simp only [deriveStep]
  split
  · rfl
  · next h => exact not_ne_iff.mp h

/-- C6 counterexample: identity promotion checks only the length, so a
40-character non-hexadecimal runtime identity is promoted into a default
config whose identity satisfied the claimed empty-or-40-lower-hex invariant,
leaving the default identity 40 characters long but not lower-case hex. -/
theorem promotion_breaks_hex_invariant :
    idHexInvariant cfgHex
    ∧ (reconcileMshID cfgHex cfgBad false).1.msh.id = idBad40
    ∧ idBad40.length = 40
    ∧ ¬ idHexInvariant (reconcileMshID cfgHex cfgBad false).1
    ∧ (reconcileMshID cfgHex cfgBad false).2 = true := by
  unfold idHexInvariant
  decide

/-- C6 (amended): the default identity is either empty or exactly 40
characters, and identity derivation, the `assignMshID` fallback and identity
promotion all preserve this; derivation from a successful machine-id /
executable-path pair additionally always produces 40 *lower-case hex*
characters, but promotion guarantees only the length, not hexness. -/
theorem identity_invariant_preserved (machineId exePath2 : Option String)
    (sha1 : String → List (Fin 256)) (gen : List (Fin 256))
    (confdef crt c : Configuration) (dirty d2 : Bool)
    (hsha : ∀ s, (sha1 s).length = 20) (hgen : gen.length = 20)
    (hc : idLenInvariant c) (hd : idLenInvariant confdef) :
    idLenInvariant (deriveStep machineId exePath2 sha1 gen c dirty).1
    ∧ idLenInvariant (reconcileMshID confdef crt d2).1
    ∧ ∀ mid ex,
        (deriveStep (some mid) (some ex) sha1 gen c dirty).1.msh.id.length = 40
        ∧ (deriveStep (some mid) (some ex) sha1 gen c dirty).1.msh.id.data.all
            isLowerHexChar = true := by
  have hassign : idLenInvariant (assignMshID (hexEncode gen) c dirty).1 := by
    by_cases hemp : c.msh.id = ""
    · right
      simp [assignMshID, hemp, idLenInvariant, hexEncode_length, hgen]
    · simpa [assignMshID, hemp, idLenInvariant] using hc
  refine ⟨?_, ?_, ?_⟩
  · cases machineId with
    | none => exact hassign
    | some mid =>
      cases exePath2 with
      | none => exact hassign
      | some ex =>
        right
        rw [deriveStep_success_id]
        simp [hexEncode_length, hsha]
  · by_cases heq : confdef.msh.id = crt.msh.id
    · simpa [reconcileMshID, heq, idLenInvariant] using hd
    · by_cases hlen : crt.msh.id.length = 40
      · right; simp [reconcileMshID, heq, hlen]
      · simpa [reconcileMshID, heq, hlen, idLenInvariant] using hd
  · intro mid ex
    rw [deriveStep_success_id]
    constructor
    · simp [hexEncode_length, hsha]
    · simp only [List.all_eq_true, decide_eq_true_eq]
      intro ch hch
      exact hexEncodeBytes_lowerHex _ ch hch

/-- Witness for C6 (amended) at concrete inputs. -/
theorem identity_invariant_preserved_witness :
    idLenInvariant (deriveStep (some "machine-1") (some "/opt/msh/msh")
        sha1Stub digestStub cfgSample false).1
    ∧ idLenInvariant (reconcileMshID cfgHex cfgBad false).1
    ∧ ((deriveStep (some "machine-1") (some "/opt/msh/msh") sha1Stub
          digestStub cfgSample false).1.msh.id.length = 40
      ∧ (deriveStep (some "machine-1") (some "/opt/msh/msh") sha1Stub
          digestStub cfgSample false).1.msh.id.data.all isLowerHexChar = true) :=
  have h := identity_invariant_preserved (some "machine-1")
    (some "/opt/msh/msh") sha1Stub digestStub cfgHex cfgBad cfgSample false
    false (fun _ => rfl) rfl (Or.inl rfl) (Or.inr (by decide))
  ⟨h.1, h.2.1, h.2.2 "machine-1" "/opt/msh/msh"⟩

/-! ## Persistence theorems -/

/-- C3 counterexample: `Save` writes to the bare fixed file name (resolved
against the working directory), which differs from the file beside the
executable that `loadDefault` reads for an executable at `/opt/msh/msh` —
refuting "writes it to the fixed config file name beside the running
executable". -/
theorem save_path_not_beside_executable :
    savePath ≠ claimedSavePath "/opt/msh/msh"
    ∧ loadPath "/opt/msh/msh" = claimedSavePath "/opt/msh/msh" := by
  decide

/-- C3 (amended): `Save` serializes the default configuration to
pretty-printed JSON at the fixed config file name resolved against the
process working directory (while `loadDefault` reads the same name beside
the executable), and deserializing a serialized configuration restores every
configuration field exactly. -/
theorem save_load_roundtrip (c : Configuration) (mshPath : String) :
    unmarshalConfig (marshalConfig c) = some c
    ∧ savePath = configFileName
    ∧ loadPath mshPath = filepathJoin (filepathDir mshPath) configFileName :=
  ⟨rfl, rfl, rfl⟩

/-! ## Dirty-flag provenance -/

theorem assignMshID_dirty_or (g : String) (c : Configuration) (d : Bool) :
    assignMshID g c d =
      ((assignMshID g c false).1, (d || (assignMshID g c false).2)) := by
  by_cases hemp : c.msh.id = "" <;> simp [assignMshID, hemp]

theorem deriveStep_dirty_or (machineId exePath2 : Option String)
    (sha1 : String → List (Fin 256)) (gen : List (Fin 256))
    (c : Configuration) (d : Bool) :
    deriveStep machineId exePath2 sha1 gen c d =
      ((deriveStep machineId exePath2 sha1 gen c false).1,
        (d || (deriveStep machineId exePath2 sha1 gen c false).2)) := by
  cases machineId with
  | none => exact assignMshID_dirty_or _ c d
  | some mid =>
    cases exePath2 with
    | none => exact assignMshID_dirty_or _ c d
    | some ex =>
      by_cases hne : c.msh.id ≠ hexEncode (sha1 (mid ++ filepathDir ex)) <;>
        simp [deriveStep, hne]

theorem probeStep_dirty_or (probe : Option (String × Int))
    (c : Configuration) (d : Bool) :
    probeStep probe c d =
      ((probeStep probe c false).1, (d || (probeStep probe c false).2)) := by
  cases probe with
  | none => simp [probeStep]
  | some vp =>
    obtain ⟨v, p⟩ := vp
    by_cases h : c.server.version ≠ v ∨ c.server.protocol ≠ p <;>
      simp [probeStep, h]

theorem reconcile_dirty_or (confdef c : Configuration) (d : Bool) :
    reconcileMshID confdef c d =
      ((reconcileMshID confdef c false).1,
        (d || (reconcileMshID confdef c false).2)) := by
  by_cases hne : confdef.msh.id ≠ c.msh.id
  · by_cases hlen : c.msh.id.length = 40 <;> simp [reconcileMshID, hne, hlen]
  · simp [reconcileMshID, hne]

/-- C7 (confirmed): the dirty flag after bootstrap is exactly the disjunction
of what identity derivation (including its `assignMshID` fallback), the
version/protocol probe and identity promotion set — in particular it is
independent of the whole validation environment, so no validation failure
(server missing, eula, failed launch, java, proxy, icon) sets it — and
`Save` is invoked exactly when the bootstrap succeeded with the flag set. -/
theorem dirty_flag_provenance (osOk : Bool) (sha1 : String → List (Fin 256))
    (de : DefaultEnv) (fl : Flags) (env env' : Env) (pth : String)
    (c0 : Configuration) (hexe : de.exePath = some pth)
    (hfile : de.fileConfig = some c0) :
    (loadConfigModel osOk sha1 de fl env).dirty =
        (loadConfigModel osOk sha1 de fl env').dirty
    ∧ (loadConfigModel osOk sha1 de fl env).saveInvoked =
        ((loadConfigModel osOk sha1 de fl env).ok &&
          (loadConfigModel osOk sha1 de fl env).dirty)
    ∧ (osOk = true →
        (loadConfigModel osOk sha1 de fl env).dirty =
          ((derivedOf sha1 de c0).2
            || (probedOf de (derivedOf sha1 de c0).1).2
            || (promotedOf fl (probedOf de (derivedOf sha1 de c0).1).1).2)) := by
  have h1 : loadDefaultModel sha1 de false =
      some ((probedOf de (derivedOf sha1 de c0).1).1,
        ((derivedOf sha1 de c0).2 ||
          (probedOf de (derivedOf sha1 de c0).1).2)) := by
    simp only [loadDefaultModel, hexe, hfile]
    rw [probeStep_dirty_or]
    rfl
  have key : ∀ e : Env, (loadConfigModel true sha1 de fl e).dirty =
      ((derivedOf sha1 de c0).2
        || (probedOf de (derivedOf sha1 de c0).1).2
        || (promotedOf fl (probedOf de (derivedOf sha1 de c0).1).1).2) := by
    intro e
    simp only [loadConfigModel, if_true, h1, loadRuntimeModel]
    rw [reconcile_dirty_or]
    simp [promotedOf, Bool.or_assoc]
  have hsave : (loadConfigModel osOk sha1 de fl env).saveInvoked =
      ((loadConfigModel osOk sha1 de fl env).ok &&
        (loadConfigModel osOk sha1 de fl env).dirty) := by
    cases osOk with
    | false => simp [loadConfigModel]
    | true =>
      simp only [loadConfigModel, if_true, h1]
      simp
  refine ⟨?_, hsave, ?_⟩
  · cases osOk with
    | false => rfl
    | true => rw [key env, key env']
  · intro hos
    subst hos
    exact key env

/-- Witness for C7 at a concrete fully-successful bootstrap. -/
theorem dirty_flag_provenance_witness :
    (loadConfigModel true sha1Stub deSample flagsNone envEulaMixed).dirty =
      ((derivedOf sha1Stub deSample cfgSample).2
        || (probedOf deSample (derivedOf sha1Stub deSample cfgSample).1).2
        || (promotedOf flagsNone
              (probedOf deSample (derivedOf sha1Stub deSample cfgSample).1).1).2) :=
  (dirty_flag_provenance true sha1Stub deSample flagsNone envEulaMixed
    envEulaMixed "/opt/msh/msh" cfgSample rfl rfl).2.2 rfl

end Msh
